import Mathlib

/-!
# Verification of the Tello wire-protocol codec

Shallow embedding of `tellopy/_internal/protocol.py`: outbound packet
framing (`Packet`), the flight-status record decoder (`FlightData`), and
the streaming telemetry demultiplexer (`LogData`).  Byte buffers are
`List Nat`; writes into a Python `bytearray` are modelled by `setByte`,
which fails (like the `IndexError` / `ValueError` the interpreter raises)
when the index is out of range or the value is not a byte.  The checksum
primitives `crc8`/`crc16` live outside the repository and are treated as
parameters; `crc8model`/`crc16model` are concrete instances used to
evaluate theorems on closed inputs.
-/

namespace Tello

def START_OF_PACKET : Nat := 0xcc

/-- Modelled from the spec: `le16` from the repository's `utils` module
(not present under `src/`): splits a value into its low and high
little-endian bytes. -/
def le16 (v : Nat) : Nat × Nat := (v % 256, (v / 256) % 256)

/-- Modelled from the spec: `int16` from the repository's `utils` module
(not present under `src/`): reads two bytes as a little-endian 16-bit
value. -/
def int16 (v0 v1 : Nat) : Nat := (v0 % 256) + (v1 % 256) * 256

/-- A concrete instance of the external checksum capability
`crc8(bytes) -> byte` (any function returning a byte satisfies the
contract; this one is used for closed evaluations). -/
def crc8model (l : List Nat) : Nat := l.sum % 256

/-- A concrete instance of the external checksum capability
`crc16(bytes) -> uint16`. -/
def crc16model (l : List Nat) : Nat := l.sum % 65536

theorem crc8model_lt (l : List Nat) : crc8model l < 256 :=
  Nat.mod_lt _ (by decide)

theorem crc16model_lt (l : List Nat) : crc16model l < 65536 :=
  Nat.mod_lt _ (by decide)

/-- `buf[i] = v` on a Python `bytearray`: fails with `IndexError` when
`i` is out of range and with `ValueError` when `v` is not a byte. -/
def setByte (buf : List Nat) (i v : Nat) : Option (List Nat) :=
  if i < buf.length ∧ v < 256 then some (buf.set i v) else none

/-- `Packet.buf`: the growable byte buffer of one framed message. -/
structure Packet where
  buf : List Nat
  deriving DecidableEq, Repr

/-- `Packet.__init__` for an integer command id: the 9-byte header
skeleton `[0xCC, 0, 0, 0, pkt_type, cmd & 0xff, (cmd >> 8) & 0xff, 0, 0]`. -/
def Packet.ofCommand (cmd : Nat) (pktType : Nat) : Packet :=
  ⟨[START_OF_PACKET, 0, 0, 0, pktType, cmd % 256, (cmd / 256) % 256, 0, 0]⟩

/-- `Packet.add_byte`: `self.buf.append(val & 0xff)`. -/
def Packet.add_byte (p : Packet) (v : Nat) : Packet :=
  ⟨p.buf ++ [v % 256]⟩

/-- `Packet.add_int16`: `add_byte(val); add_byte(val >> 8)`. -/
def Packet.add_int16 (p : Packet) (v : Nat) : Packet :=
  (p.add_byte v).add_byte (v >>> 8)

/-- `Packet.get_data`: `self.buf[9:len(self.buf)-2]`. -/
def Packet.get_data (p : Packet) : List Nat :=
  (p.buf.take (p.buf.length - 2)).drop 9

/-- `Packet.fixup(seq_num)`: when the buffer starts with the sync marker,
stamp the shifted length bytes, the header crc8, the sequence number, and
append the frame crc16.  Each `bytearray` store goes through `setByte`,
so the `ValueError` raised by `buf[1] = (buf[1] << 3)` on a value `≥ 256`
(and any `IndexError` on a short buffer) surfaces as `none`. -/
def Packet.fixup (crc8 crc16 : List Nat → Nat) (p : Packet) (seq : Nat) :
    Option Packet :=
  let buf0 := p.buf
  if buf0.length = 0 then none
  else if buf0.headI ≠ START_OF_PACKET then some p
  else
    match setByte buf0 1 (le16 (buf0.length + 2)).1 with
    | none => none
    | some buf1 =>
      match setByte buf1 2 (le16 (buf0.length + 2)).2 with
      | none => none
      | some buf2 =>
        match setByte buf2 1 (buf2.getD 1 0 <<< 3) with
        | none => none
        | some buf3 =>
          match setByte buf3 3 (crc8 (buf3.take 3)) with
          | none => none
          | some buf4 =>
            match setByte buf4 7 (le16 seq).1 with
            | none => none
            | some buf5 =>
              match setByte buf5 8 (le16 seq).2 with
              | none => none
              | some buf6 => some ((Packet.mk buf6).add_int16 (crc16 buf6))

/-- One payload-building call on a packet: `add_byte` or `add_int16`. -/
inductive PayloadOp
  | byte (v : Nat)
  | int16 (v : Nat)
  deriving DecidableEq, Repr

def applyOp (p : Packet) : PayloadOp → Packet
  | .byte v => p.add_byte v
  | .int16 v => p.add_int16 v

/-- The bytes a payload-building call appends to the buffer. -/
def opBytes : PayloadOp → List Nat
  | .byte v => [v % 256]
  | .int16 v => [v % 256, (v >>> 8) % 256]

def buildPacket (cmd pktType : Nat) (ops : List PayloadOp) : Packet :=
  ops.foldl applyOp (Packet.ofCommand cmd pktType)

theorem applyOp_buf (p : Packet) (op : PayloadOp) :
    (applyOp p op).buf = p.buf ++ opBytes op := by
  cases op <;> simp [applyOp, opBytes, Packet.add_byte, Packet.add_int16]

theorem buildPacket_buf (cmd pktType : Nat) (ops : List PayloadOp) :
    (buildPacket cmd pktType ops).buf =
      (Packet.ofCommand cmd pktType).buf ++ ops.flatMap opBytes := by
  suffices h : ∀ (p : Packet), (ops.foldl applyOp p).buf = p.buf ++ ops.flatMap opBytes by
    exact h _
  induction ops with
  | nil => intro p; simp
  | cons op rest ih =>
    intro p
    simp [List.foldl_cons, ih, applyOp_buf]

theorem setByte_pos (buf : List Nat) {i v : Nat} (h : i < buf.length ∧ v < 256) :
    setByte buf i v = some (buf.set i v) := if_pos h

theorem setByte_neg (buf : List Nat) {i v : Nat} (h : ¬(i < buf.length ∧ v < 256)) :
    setByte buf i v = none := if_neg h

theorem getD_set_self (l : List Nat) (i v : Nat) (h : i < l.length) :
    (l.set i v).getD i 0 = v := by
  rw [List.getD_eq_getElem?_getD, List.getElem?_set_self h]
  rfl

theorem getD_set_ne (l : List Nat) {i j : Nat} (v : Nat) (h : i ≠ j) :
    (l.set i v).getD j 0 = l.getD j 0 := by
  rw [List.getD_eq_getElem?_getD, List.getElem?_set_ne h, List.getD_eq_getElem?_getD]

theorem take_set_of_le (l : List Nat) {n m : Nat} (v : Nat) (h : n ≤ m) :
    (l.set m v).take n = l.take n := by
  rw [List.set_take, List.set_eq_of_length_le]
  exact le_trans (List.length_take_le _ _) h

/-- The buffer after `fixup`'s first three stores: shifted low length
byte, high length byte. -/
def fixupPre (buf : List Nat) : List Nat :=
  ((buf.set 1 (le16 (buf.length + 2)).1).set 2 (le16 (buf.length + 2)).2).set 1
    ((le16 (buf.length + 2)).1 <<< 3)

/-- The buffer after all of `fixup`'s in-place stores (length bytes,
header crc8, sequence number), before the crc16 is appended. -/
def fixupMid (c8 : Nat) (buf : List Nat) (seq : Nat) : List Nat :=
  (((fixupPre buf).set 3 c8).set 7 (le16 seq).1).set 8 (le16 seq).2

/-- The finished buffer: the stamped buffer with the two little-endian
crc16 bytes appended. -/
def fixupOut (crc16 : List Nat → Nat) (mid : List Nat) : List Nat :=
  mid ++ [crc16 mid % 256, (crc16 mid >>> 8) % 256]

theorem length_fixupPre (buf : List Nat) : (fixupPre buf).length = buf.length := by
  simp [fixupPre]

theorem length_fixupMid (c8 : Nat) (buf : List Nat) (seq : Nat) :
    (fixupMid c8 buf seq).length = buf.length := by
  simp [fixupMid, length_fixupPre]

/-- Complete characterisation of `fixup` on a buffer that starts with the
sync marker: it succeeds exactly when the buffer holds a full 9-byte
header, the shifted low length byte still fits in a byte, and the crc8
value fits in a byte; the result is then the stamped buffer plus crc16. -/
theorem fixup_eq_some_iff (crc8 crc16 : List Nat → Nat) (p : Packet) (seq : Nat)
    (q : Packet) (hcc : p.buf.headI = START_OF_PACKET) :
    p.fixup crc8 crc16 seq = some q ↔
      9 ≤ p.buf.length ∧ (le16 (p.buf.length + 2)).1 <<< 3 < 256 ∧
      crc8 ((fixupPre p.buf).take 3) < 256 ∧
      q = ⟨fixupOut crc16 (fixupMid (crc8 ((fixupPre p.buf).take 3)) p.buf seq)⟩ := by
  have hne : p.buf.length ≠ 0 := by
    intro h
    rw [List.length_eq_zero] at h
    rw [h] at hcc
    simp [List.headI, START_OF_PACKET] at hcc
  have ha1 : (le16 (p.buf.length + 2)).1 < 256 := Nat.mod_lt _ (by decide)
  have ha2 : (le16 (p.buf.length + 2)).2 < 256 := Nat.mod_lt _ (by decide)
  have hs1 : (le16 seq).1 < 256 := Nat.mod_lt _ (by decide)
  have hs2 : (le16 seq).2 < 256 := Nat.mod_lt _ (by decide)
  have hpre : ((p.buf.set 1 (le16 (p.buf.length + 2)).1).set 2
      (le16 (p.buf.length + 2)).2).set 1 ((le16 (p.buf.length + 2)).1 <<< 3) =
      fixupPre p.buf := rfl
  by_cases h9 : 9 ≤ p.buf.length
  · have e1 := setByte_pos (p.buf) (i := 1) (v := (le16 (p.buf.length + 2)).1)
      ⟨by omega, ha1⟩
    have e2 := setByte_pos (p.buf.set 1 (le16 (p.buf.length + 2)).1) (i := 2)
      (v := (le16 (p.buf.length + 2)).2) ⟨by simp; omega, ha2⟩
    have hget : ((p.buf.set 1 (le16 (p.buf.length + 2)).1).set 2
        (le16 (p.buf.length + 2)).2).getD 1 0 = (le16 (p.buf.length + 2)).1 := by
      rw [getD_set_ne _ _ (by decide), getD_set_self _ _ _ (by omega)]
    by_cases hsh : (le16 (p.buf.length + 2)).1 <<< 3 < 256
    · have e3 := setByte_pos ((p.buf.set 1 (le16 (p.buf.length + 2)).1).set 2
        (le16 (p.buf.length + 2)).2) (i := 1)
        (v := (le16 (p.buf.length + 2)).1 <<< 3) ⟨by simp; omega, hsh⟩
      by_cases hc8 : crc8 ((fixupPre p.buf).take 3) < 256
      · have e4 := setByte_pos (fixupPre p.buf) (i := 3)
          (v := crc8 ((fixupPre p.buf).take 3)) ⟨by rw [length_fixupPre]; omega, hc8⟩
        have e5 := setByte_pos ((fixupPre p.buf).set 3
          (crc8 ((fixupPre p.buf).take 3))) (i := 7) (v := (le16 seq).1)
          ⟨by simp [length_fixupPre]; omega, hs1⟩
        have e6 := setByte_pos (((fixupPre p.buf).set 3
          (crc8 ((fixupPre p.buf).take 3))).set 7 (le16 seq).1) (i := 8) (v := (le16 seq).2)
          ⟨by simp [length_fixupPre]; omega, hs2⟩
        have hmid : ((((fixupPre p.buf).set 3 (crc8 ((fixupPre p.buf).take 3))).set 7
            (le16 seq).1).set 8 (le16 seq).2) =
            fixupMid (crc8 ((fixupPre p.buf).take 3)) p.buf seq := rfl
        have hout : (Packet.mk (fixupMid (crc8 ((fixupPre p.buf).take 3)) p.buf seq)).add_int16
            (crc16 (fixupMid (crc8 ((fixupPre p.buf).take 3)) p.buf seq)) =
            ⟨fixupOut crc16 (fixupMid (crc8 ((fixupPre p.buf).take 3)) p.buf seq)⟩ := by
          simp [Packet.add_int16, Packet.add_byte, fixupOut]
        simp only [Packet.fixup, if_neg hne, hcc, ne_eq, not_true_eq_false, if_false,
          ite_false, e1, e2, hget, e3, hpre, e4, e5, e6, hmid, hout]
        constructor
        · intro h
          exact ⟨h9, hsh, hc8, (Option.some_inj.mp h).symm⟩
        · rintro ⟨-, -, -, rfl⟩
          rfl
      · have e4 := setByte_neg (fixupPre p.buf) (i := 3)
          (v := crc8 ((fixupPre p.buf).take 3)) (by intro h; exact hc8 h.2)
        simp only [Packet.fixup, if_neg hne, hcc, ne_eq, not_true_eq_false, if_false,
          ite_false, e1, e2, hget, e3, hpre, e4]
        simp [hc8]
    · have e3 := setByte_neg ((p.buf.set 1 (le16 (p.buf.length + 2)).1).set 2
        (le16 (p.buf.length + 2)).2) (i := 1)
        (v := (le16 (p.buf.length + 2)).1 <<< 3) (by intro h; exact hsh h.2)
      simp only [Packet.fixup, if_neg hne, hcc, ne_eq, not_true_eq_false, if_false,
        ite_false, e1, e2, hget, e3]
      simp [hsh]
  · constructor
    · intro h
      exfalso
      revert h
      by_cases h1 : 1 < p.buf.length
      · have e1 := setByte_pos (p.buf) (i := 1) (v := (le16 (p.buf.length + 2)).1)
          ⟨h1, ha1⟩
        by_cases h2 : 2 < p.buf.length
        · have e2 := setByte_pos (p.buf.set 1 (le16 (p.buf.length + 2)).1) (i := 2)
            (v := (le16 (p.buf.length + 2)).2) ⟨by simpa using h2, ha2⟩
          have hget : ((p.buf.set 1 (le16 (p.buf.length + 2)).1).set 2
              (le16 (p.buf.length + 2)).2).getD 1 0 = (le16 (p.buf.length + 2)).1 := by
            rw [getD_set_ne _ _ (by decide), getD_set_self _ _ _ h1]
          by_cases hsh : (le16 (p.buf.length + 2)).1 <<< 3 < 256
          · have e3 := setByte_pos ((p.buf.set 1 (le16 (p.buf.length + 2)).1).set 2
              (le16 (p.buf.length + 2)).2) (i := 1)
              (v := (le16 (p.buf.length + 2)).1 <<< 3) ⟨by simpa using h1, hsh⟩
            by_cases h3 : 3 < p.buf.length
            · by_cases hc8 : crc8 ((fixupPre p.buf).take 3) < 256
              · have e4 := setByte_pos (fixupPre p.buf) (i := 3)
                  (v := crc8 ((fixupPre p.buf).take 3)) ⟨by rw [length_fixupPre]; omega, hc8⟩
                by_cases h7 : 7 < p.buf.length
                · have e5 := setByte_pos ((fixupPre p.buf).set 3
                    (crc8 ((fixupPre p.buf).take 3))) (i := 7) (v := (le16 seq).1)
                    ⟨by simp [length_fixupPre]; omega, hs1⟩
                  have e6 := setByte_neg (((fixupPre p.buf).set 3
                    (crc8 ((fixupPre p.buf).take 3))).set 7 (le16 seq).1) (i := 8)
                    (v := (le16 seq).2) (by simp [length_fixupPre]; omega)
                  simp only [Packet.fixup, if_neg hne, hcc, ne_eq, not_true_eq_false,
                    ite_false, e1, e2, hget, e3, hpre, e4, e5, e6]
                  exact fun hsome => Option.noConfusion hsome
                · have e5 := setByte_neg ((fixupPre p.buf).set 3
                    (crc8 ((fixupPre p.buf).take 3))) (i := 7) (v := (le16 seq).1)
                    (by simp [length_fixupPre]; omega)
                  simp only [Packet.fixup, if_neg hne, hcc, ne_eq, not_true_eq_false,
                    ite_false, e1, e2, hget, e3, hpre, e4, e5]
                  exact fun hsome => Option.noConfusion hsome
              · have e4 := setByte_neg (fixupPre p.buf) (i := 3)
                  (v := crc8 ((fixupPre p.buf).take 3)) (by intro hh; exact hc8 hh.2)
                simp only [Packet.fixup, if_neg hne, hcc, ne_eq, not_true_eq_false,
                  ite_false, e1, e2, hget, e3, hpre, e4]
                exact fun hsome => Option.noConfusion hsome
            · have e4 := setByte_neg (fixupPre p.buf) (i := 3)
                (v := crc8 ((fixupPre p.buf).take 3)) (by rw [length_fixupPre]; intro hh; omega)
              simp only [Packet.fixup, if_neg hne, hcc, ne_eq, not_true_eq_false,
                ite_false, e1, e2, hget, e3, hpre, e4]
              exact fun hsome => Option.noConfusion hsome
          · have e3 := setByte_neg ((p.buf.set 1 (le16 (p.buf.length + 2)).1).set 2
              (le16 (p.buf.length + 2)).2) (i := 1)
              (v := (le16 (p.buf.length + 2)).1 <<< 3) (by intro hh; exact hsh hh.2)
            simp only [Packet.fixup, if_neg hne, hcc, ne_eq, not_true_eq_false,
              ite_false, e1, e2, hget, e3]
            exact fun hsome => Option.noConfusion hsome
        · have e2 := setByte_neg (p.buf.set 1 (le16 (p.buf.length + 2)).1) (i := 2)
            (v := (le16 (p.buf.length + 2)).2) (by simp; omega)
          simp only [Packet.fixup, if_neg hne, hcc, ne_eq, not_true_eq_false,
            ite_false, e1, e2]
          exact fun hsome => Option.noConfusion hsome
      · have e1 := setByte_neg (p.buf) (i := 1) (v := (le16 (p.buf.length + 2)).1)
          (by intro hh; exact h1 hh.1)
        simp only [Packet.fixup, if_neg hne, hcc, ne_eq, not_true_eq_false, ite_false, e1]
        exact fun hsome => Option.noConfusion hsome
    · rintro ⟨h, -⟩
      omega

theorem getD_append_left (l1 l2 : List Nat) {i : Nat} (h : i < l1.length) :
    (l1 ++ l2).getD i 0 = l1.getD i 0 := by
  rw [List.getD_eq_getElem?_getD, List.getElem?_append_left h, List.getD_eq_getElem?_getD]

theorem getD_append_right (l1 l2 : List Nat) {i : Nat} (h : l1.length ≤ i) :
    (l1 ++ l2).getD i 0 = l2.getD (i - l1.length) 0 := by
  rw [List.getD_eq_getElem?_getD, List.getElem?_append_right h, List.getD_eq_getElem?_getD]

/-- C1 (amended): whenever `fixup` completes on a packet built by the
integer-command constructor with payload appended through
`add_byte`/`add_int16`, `get_data` returns exactly the appended payload
bytes: the 9-byte header is stripped from the front and the two trailing
crc16 bytes from the back. -/
theorem C1_fixup_get_data_roundtrip (crc8 crc16 : List Nat → Nat)
    (cmd pktType seq : Nat) (ops : List PayloadOp) (q : Packet)
    (h : (buildPacket cmd pktType ops).fixup crc8 crc16 seq = some q) :
    q.get_data = ops.flatMap opBytes := by
  set p := buildPacket cmd pktType ops with hp
  have hbuf : p.buf = (Packet.ofCommand cmd pktType).buf ++ ops.flatMap opBytes :=
    buildPacket_buf cmd pktType ops
  have hcc : p.buf.headI = START_OF_PACKET := by
    rw [hbuf]
    rfl
  obtain ⟨h9, -, -, rfl⟩ := (fixup_eq_some_iff crc8 crc16 p seq q hcc).mp h
  set c8v := crc8 ((fixupPre p.buf).take 3) with hc8v
  set mid := fixupMid c8v p.buf seq with hmid
  have hmlen : mid.length = p.buf.length := length_fixupMid _ _ _
  have hqbuf : (Packet.mk (fixupOut crc16 mid)).buf = mid ++ [crc16 mid % 256,
      (crc16 mid >>> 8) % 256] := rfl
  rw [Packet.get_data, hqbuf]
  have hlen2 : (mid ++ [crc16 mid % 256, (crc16 mid >>> 8) % 256]).length - 2 =
      mid.length := by
    simp
  rw [hlen2, List.take_left]
  have hdrop : mid.drop 9 = p.buf.drop 9 := by
    rw [hmid, fixupMid, fixupPre]
    simp only [List.drop_set]
    norm_num
  rw [hdrop, hbuf]
  have hhl : (Packet.ofCommand cmd pktType).buf.length = 9 := rfl
  rw [← hhl, List.drop_left]

/-- C1: the claim fails as universally stated: on a 21-byte payload the
buffer reaches 30 bytes, the low length byte of `len+2` is 32, and
`buf[1] = (buf[1] << 3)` stores 256, which a Python `bytearray` rejects
with `ValueError`, so `fixup` never returns and no payload round-trip
happens. -/
theorem C1_counterexample :
    (buildPacket 84 0x68 (List.replicate 21 (PayloadOp.byte 0))).fixup
      crc8model crc16model 0 = none := by decide

/-- C2: after `fixup` completes on a packet whose first byte is the sync
marker, byte 3 equals `crc8` of the first three bytes of the final
buffer, and the last two bytes, read little-endian, equal `crc16` of all
preceding bytes. -/
theorem C2_header_crc8_frame_crc16 (crc8 crc16 : List Nat → Nat) (p : Packet)
    (seq : Nat) (q : Packet) (hcc : p.buf.headI = START_OF_PACKET)
    (hc16 : ∀ l, crc16 l < 65536) (h : p.fixup crc8 crc16 seq = some q) :
    q.buf.getD 3 0 = crc8 (q.buf.take 3) ∧
    int16 (q.buf.getD (q.buf.length - 2) 0) (q.buf.getD (q.buf.length - 1) 0) =
      crc16 (q.buf.take (q.buf.length - 2)) := by
  obtain ⟨h9, -, -, rfl⟩ := (fixup_eq_some_iff crc8 crc16 p seq q hcc).mp h
  set c8v := crc8 ((fixupPre p.buf).take 3) with hc8v
  set mid := fixupMid c8v p.buf seq with hmid
  have hmlen : mid.length = p.buf.length := length_fixupMid _ _ _
  have hqbuf : (Packet.mk (fixupOut crc16 mid)).buf = mid ++ [crc16 mid % 256,
      (crc16 mid >>> 8) % 256] := rfl
  have hlen : (mid ++ [crc16 mid % 256, (crc16 mid >>> 8) % 256]).length =
      mid.length + 2 := by simp
  have htake3 : (mid ++ [crc16 mid % 256, (crc16 mid >>> 8) % 256]).take 3 =
      (fixupPre p.buf).take 3 := by
    rw [List.take_append_of_le_length (by omega), hmid, fixupMid,
      take_set_of_le _ _ (by omega), take_set_of_le _ _ (by omega),
      take_set_of_le _ _ (by omega)]
  constructor
  · rw [hqbuf, htake3, getD_append_left _ _ (by omega), hmid, fixupMid,
      getD_set_ne _ _ (by decide), getD_set_ne _ _ (by decide),
      getD_set_self _ _ _ (by rw [length_fixupPre]; omega)]
  · rw [hqbuf, hlen]
    have e1 : mid.length + 2 - 2 = mid.length := by omega
    have e2 : mid.length + 2 - 1 = mid.length + 1 := by omega
    rw [e1, e2, getD_append_right _ _ (le_refl _),
      getD_append_right _ _ (by omega), Nat.sub_self,
      show mid.length + 1 - mid.length = 1 from by omega, List.take_left]
    have hlt := hc16 mid
    simp only [List.getD, List.getElem?_cons_zero, List.getElem?_cons_succ,
      Option.getD_some]
    rw [int16, Nat.shiftRight_eq_div_pow]
    norm_num
    omega

/-- C3: the claim that `fixup` completes for every buffer contents and
length is false: on a 30-byte sync-marked buffer the shifted low length
byte is `32 << 3 = 256`, which the `bytearray` store rejects
(`ValueError`), an error rather than a silent truncation. -/
theorem C3_counterexample :
    Packet.fixup crc8model crc16model ⟨START_OF_PACKET :: List.replicate 29 0⟩ 0 =
      none := by decide

/-- C3 (amended): `add_byte`, `add_int16` and the time append are total;
`fixup` completes on a non-empty buffer provided that, when the buffer
starts with the sync marker, it holds the full 9-byte header, the low
byte of `length+2` is below 32 (so the 3-bit shift still fits in a
byte), and `crc8` returns a byte; outside these conditions the store
raises instead of truncating. -/
theorem C3_fixup_completes (crc8 crc16 : List Nat → Nat) (p : Packet) (seq : Nat)
    (hb : p.buf ≠ []) (hcrc8 : ∀ l, crc8 l < 256)
    (hlen : p.buf.headI = START_OF_PACKET →
      9 ≤ p.buf.length ∧ (p.buf.length + 2) % 256 < 32) :
    (p.fixup crc8 crc16 seq).isSome = true := by
  by_cases hcc : p.buf.headI = START_OF_PACKET
  · obtain ⟨h9, hlo⟩ := hlen hcc
    have hsh : (le16 (p.buf.length + 2)).1 <<< 3 < 256 := by
      rw [le16, Nat.shiftLeft_eq]
      norm_num
      omega
    rw [(fixup_eq_some_iff crc8 crc16 p seq _ hcc).mpr
      ⟨h9, hsh, hcrc8 _, rfl⟩]
    rfl
  · have hne : p.buf.length ≠ 0 := by
      intro h0
      exact hb (List.length_eq_zero.mp h0)
    rw [Packet.fixup]
    simp only [if_neg hne, hcc, ne_eq, not_false_eq_true, if_true]
    rfl

theorem C1_witness :
    (buildPacket 84 0x68 [PayloadOp.byte 1, PayloadOp.int16 513]).fixup
      crc8model crc16model 0 =
      some ⟨[204, 112, 0, 60, 104, 84, 0, 0, 0, 1, 1, 2, 56, 2]⟩ ∧
    (Packet.mk [204, 112, 0, 60, 104, 84, 0, 0, 0, 1, 1, 2, 56, 2]).get_data =
      [1, 1, 2] := by
  refine ⟨by decide, ?_⟩
  exact (C1_fixup_get_data_roundtrip crc8model crc16model 84 0x68 0
    [PayloadOp.byte 1, PayloadOp.int16 513]
    ⟨[204, 112, 0, 60, 104, 84, 0, 0, 0, 1, 1, 2, 56, 2]⟩ (by decide)).trans (by decide)

theorem C2_witness :
    (Packet.mk [204, 88, 0, 36, 104, 84, 0, 0, 0, 4, 2]).buf.getD 3 0 =
      crc8model ((Packet.mk [204, 88, 0, 36, 104, 84, 0, 0, 0, 4, 2]).buf.take 3) ∧
    int16 ((Packet.mk [204, 88, 0, 36, 104, 84, 0, 0, 0, 4, 2]).buf.getD
        ((Packet.mk [204, 88, 0, 36, 104, 84, 0, 0, 0, 4, 2]).buf.length - 2) 0)
      ((Packet.mk [204, 88, 0, 36, 104, 84, 0, 0, 0, 4, 2]).buf.getD
        ((Packet.mk [204, 88, 0, 36, 104, 84, 0, 0, 0, 4, 2]).buf.length - 1) 0) =
      crc16model ((Packet.mk [204, 88, 0, 36, 104, 84, 0, 0, 0, 4, 2]).buf.take
        ((Packet.mk [204, 88, 0, 36, 104, 84, 0, 0, 0, 4, 2]).buf.length - 2)) :=
  C2_header_crc8_frame_crc16 crc8model crc16model (Packet.ofCommand 84 0x68) 0
    (Packet.mk [204, 88, 0, 36, 104, 84, 0, 0, 0, 4, 2]) (by decide)
    crc16model_lt (by decide)

theorem C3_witness :
    ((Packet.ofCommand 84 0x68).fixup crc8model crc16model 0).isSome = true :=
  C3_fixup_completes crc8model crc16model (Packet.ofCommand 84 0x68) 0
    (by decide) crc8model_lt (fun _ => ⟨by decide, by decide⟩)

/-- `Packet.add_time`: appends hour, minute and second as 16-bit
little-endian values, then the millisecond value split into two separate
16-bit fields (`ms & 0xff` and `(ms >> 8) & 0xff`, each re-encoded as a
full little-endian 16-bit value) — the 10-byte wire quirk.  The datetime
fields are passed explicitly. -/
def Packet.add_time (p : Packet) (hour min sec ms : Nat) : Packet :=
  ((((p.add_int16 hour).add_int16 min).add_int16 sec).add_int16
    (ms % 256)).add_int16 ((ms >>> 8) % 256)

/-- `Packet.get_time` on an explicit buffer: reads hour/min/sec as three
little-endian 16-bit values and the millisecond from relative offsets 6
and 8 (offset 7 is skipped), then builds a `datetime`, whose constructor
rejects an out-of-range hour/minute/second/microsecond (`ValueError`);
an under-length buffer raises `IndexError`.  Both failures are `none`. -/
def Packet.get_time (buf : List Nat) : Option (Nat × Nat × Nat × Nat) :=
  if buf.length < 9 then none
  else
    let hour := int16 (buf.getD 0 0) (buf.getD 1 0)
    let min := int16 (buf.getD 2 0) (buf.getD 3 0)
    let sec := int16 (buf.getD 4 0) (buf.getD 5 0)
    let millisec := int16 (buf.getD 6 0) (buf.getD 8 0)
    if hour < 24 ∧ min < 60 ∧ sec < 60 ∧ millisec < 1000000 then
      some (hour, min, sec, millisec)
    else none

/-- `FlightData`: the decoded flight-status record; every field defaults
to zero. -/
structure FlightData where
  battery_low : Nat := 0
  battery_lower : Nat := 0
  battery_percentage : Nat := 0
  battery_state : Nat := 0
  camera_state : Nat := 0
  down_visual_state : Nat := 0
  drone_battery_left : Nat := 0
  drone_fly_time_left : Nat := 0
  drone_hover : Nat := 0
  em_open : Nat := 0
  em_sky : Nat := 0
  em_ground : Nat := 0
  east_speed : Nat := 0
  electrical_machinery_state : Nat := 0
  factory_mode : Nat := 0
  fly_mode : Nat := 0
  fly_time : Nat := 0
  front_in : Nat := 0
  front_lsc : Nat := 0
  front_out : Nat := 0
  gravity_state : Nat := 0
  vertical_speed : Nat := 0
  height : Nat := 0
  imu_calibration_state : Nat := 0
  imu_state : Nat := 0
  north_speed : Nat := 0
  outage_recording : Nat := 0
  power_state : Nat := 0
  pressure_state : Nat := 0
  temperature_height : Nat := 0
  throw_fly_timer : Nat := 0
  wind_state : Nat := 0
  deriving DecidableEq, Repr

/-- `FlightData.__init__`: zero-initialise every field, return early on
payloads shorter than 24 bytes, otherwise decode the fixed offset/bit
table. -/
def FlightData.decode (data : List Nat) : FlightData :=
  if data.length < 24 then {}
  else
    { height := int16 (data.getD 0 0) (data.getD 1 0)
      north_speed := int16 (data.getD 2 0) (data.getD 3 0)
      east_speed := int16 (data.getD 4 0) (data.getD 5 0)
      vertical_speed := int16 (data.getD 6 0) (data.getD 7 0)
      fly_time := int16 (data.getD 8 0) (data.getD 9 0)
      imu_state := (data.getD 10 0 >>> 0) &&& 0x1
      pressure_state := (data.getD 10 0 >>> 1) &&& 0x1
      down_visual_state := (data.getD 10 0 >>> 2) &&& 0x1
      power_state := (data.getD 10 0 >>> 3) &&& 0x1
      battery_state := (data.getD 10 0 >>> 4) &&& 0x1
      gravity_state := (data.getD 10 0 >>> 5) &&& 0x1
      wind_state := (data.getD 10 0 >>> 7) &&& 0x1
      imu_calibration_state := data.getD 11 0
      battery_percentage := data.getD 12 0
      drone_fly_time_left := int16 (data.getD 13 0) (data.getD 14 0)
      drone_battery_left := int16 (data.getD 15 0) (data.getD 16 0)
      em_sky := (data.getD 17 0 >>> 0) &&& 0x1
      em_ground := (data.getD 17 0 >>> 1) &&& 0x1
      em_open := (data.getD 17 0 >>> 2) &&& 0x1
      drone_hover := (data.getD 17 0 >>> 3) &&& 0x1
      outage_recording := (data.getD 17 0 >>> 4) &&& 0x1
      battery_low := (data.getD 17 0 >>> 5) &&& 0x1
      battery_lower := (data.getD 17 0 >>> 6) &&& 0x1
      factory_mode := (data.getD 17 0 >>> 7) &&& 0x1
      fly_mode := data.getD 18 0
      throw_fly_timer := data.getD 19 0
      camera_state := data.getD 20 0
      electrical_machinery_state := data.getD 21 0
      front_in := (data.getD 22 0 >>> 0) &&& 0x1
      front_out := (data.getD 22 0 >>> 1) &&& 0x1
      front_lsc := (data.getD 22 0 >>> 2) &&& 0x1
      temperature_height := (data.getD 23 0 >>> 0) &&& 0x1 }

/-- The 24-byte status payload of the spec's example vector. -/
def statusVector : List Nat :=
  [0x0A, 0x00, 0x05, 0x00, 0x00, 0x00, 0x00, 0x00, 0x64, 0x00,
   0b00010001, 0x05, 0x32, 0x00, 0x00, 0x00, 0x00, 0b00000101,
   0x02, 0x03, 0x07, 0x01, 0b00000011, 0b00000001]

/-- C4: the claim is false on the code: byte 10 of the vector is
`0b00010001`, whose bit 3 is clear, so the decoder yields
`power_state = 0` (bit 4, `battery_state`, is the bit that is set),
contradicting the claimed `power_state = 1`. -/
theorem C4_counterexample :
    ¬((FlightData.decode statusVector).height = 10 ∧
      (FlightData.decode statusVector).north_speed = 5 ∧
      (FlightData.decode statusVector).fly_time = 100 ∧
      (FlightData.decode statusVector).imu_state = 1 ∧
      (FlightData.decode statusVector).power_state = 1 ∧
      (FlightData.decode statusVector).imu_calibration_state = 5 ∧
      (FlightData.decode statusVector).battery_percentage = 50 ∧
      (FlightData.decode statusVector).em_sky = 1 ∧
      (FlightData.decode statusVector).em_open = 1 ∧
      (FlightData.decode statusVector).fly_mode = 2 ∧
      (FlightData.decode statusVector).throw_fly_timer = 3 ∧
      (FlightData.decode statusVector).camera_state = 7 ∧
      (FlightData.decode statusVector).electrical_machinery_state = 1 ∧
      (FlightData.decode statusVector).front_in = 1 ∧
      (FlightData.decode statusVector).front_out = 1 ∧
      (FlightData.decode statusVector).temperature_height = 1) := by decide

/-- C4 (amended): decoding the example status payload yields the claimed
field values except that `power_state` (bit 3 of byte 10) is 0 — the set
bit 4 is `battery_state` instead. -/
theorem C4_status_vector_decode :
    (FlightData.decode statusVector).height = 10 ∧
    (FlightData.decode statusVector).north_speed = 5 ∧
    (FlightData.decode statusVector).fly_time = 100 ∧
    (FlightData.decode statusVector).imu_state = 1 ∧
    (FlightData.decode statusVector).power_state = 0 ∧
    (FlightData.decode statusVector).battery_state = 1 ∧
    (FlightData.decode statusVector).imu_calibration_state = 5 ∧
    (FlightData.decode statusVector).battery_percentage = 50 ∧
    (FlightData.decode statusVector).em_sky = 1 ∧
    (FlightData.decode statusVector).em_open = 1 ∧
    (FlightData.decode statusVector).fly_mode = 2 ∧
    (FlightData.decode statusVector).throw_fly_timer = 3 ∧
    (FlightData.decode statusVector).camera_state = 7 ∧
    (FlightData.decode statusVector).electrical_machinery_state = 1 ∧
    (FlightData.decode statusVector).front_in = 1 ∧
    (FlightData.decode statusVector).front_out = 1 ∧
    (FlightData.decode statusVector).temperature_height = 1 := by decide

/-- C5: decoding any status payload shorter than 24 bytes returns the
record with every field at its zero default, and never errors. -/
theorem C5_short_payload_all_zero (data : List Nat) (h : data.length < 24) :
    FlightData.decode data = {} := by
  rw [FlightData.decode, if_pos h]

theorem C5_witness : FlightData.decode [] = {} :=
  C5_short_payload_all_zero [] (by decide)

/-- C9: `get_time` is the inverse of `add_time`: for calendar-range
hour/minute/second and any millisecond value below 2^16, reading the 10
bytes that `add_time` writes recovers all four values, the millisecond
being reassembled from relative offsets 6 and 8. -/
theorem C9_time_roundtrip (hour min sec ms : Nat) (hh : hour < 24)
    (hm : min < 60) (hs : sec < 60) (hms : ms < 65536) :
    Packet.get_time ((Packet.mk []).add_time hour min sec ms).buf =
      some (hour, min, sec, ms) := by
  have h0 : int16 (hour % 256) ((hour >>> 8) % 256) = hour := by
    rw [int16, Nat.shiftRight_eq_div_pow]
    norm_num
    omega
  have h1 : int16 (min % 256) ((min >>> 8) % 256) = min := by
    rw [int16, Nat.shiftRight_eq_div_pow]
    norm_num
    omega
  have h2 : int16 (sec % 256) ((sec >>> 8) % 256) = sec := by
    rw [int16, Nat.shiftRight_eq_div_pow]
    norm_num
    omega
  have h3 : int16 (ms % 256 % 256) ((ms >>> 8) % 256 % 256) = ms := by
    rw [int16, Nat.shiftRight_eq_div_pow]
    norm_num
    omega
  have hstep : Packet.get_time ((Packet.mk []).add_time hour min sec ms).buf =
      if int16 (hour % 256) ((hour >>> 8) % 256) < 24 ∧
         int16 (min % 256) ((min >>> 8) % 256) < 60 ∧
         int16 (sec % 256) ((sec >>> 8) % 256) < 60 ∧
         int16 (ms % 256 % 256) ((ms >>> 8) % 256 % 256) < 1000000 then
        some (int16 (hour % 256) ((hour >>> 8) % 256),
          int16 (min % 256) ((min >>> 8) % 256),
          int16 (sec % 256) ((sec >>> 8) % 256),
          int16 (ms % 256 % 256) ((ms >>> 8) % 256 % 256))
      else none := rfl
  rw [hstep, h0, h1, h2, h3, if_pos ⟨hh, hm, hs, by omega⟩]

theorem C9_witness :
    Packet.get_time ((Packet.mk []).add_time 13 37 59 65535).buf =
      some (13, 37, 59, 65535) :=
  C9_time_roundtrip 13 37 59 65535 (by decide) (by decide) (by decide) (by decide)

/-- Normalise a Python offset: a negative index counts from the end. -/
def pyOff (n : Nat) (i : Int) : Int := if i < 0 then i + n else i

/-- Python `data[i]` on a bytes-like value (also
`struct.unpack_from('B', data, i)`): `IndexError`/`struct.error` when the
normalised index is out of range. -/
def pyGetByte (data : List Nat) (i : Int) : Option Nat :=
  if 0 ≤ pyOff data.length i ∧ pyOff data.length i < (data.length : Int) then
    some (data.getD (pyOff data.length i).toNat 0)
  else none

/-- `struct.unpack_from('<H', data, off)`: an unsigned little-endian
16-bit read, `struct.error` when fewer than 2 bytes remain. -/
def unpackU16 (data : List Nat) (off : Int) : Option Nat :=
  if 0 ≤ pyOff data.length off ∧ pyOff data.length off + 2 ≤ (data.length : Int) then
    some (data.getD (pyOff data.length off).toNat 0 +
      data.getD ((pyOff data.length off).toNat + 1) 0 * 256)
  else none

/-- Two's-complement reading of a 16-bit value. -/
def toS16 (u : Nat) : Int := if u < 32768 then (u : Int) else (u : Int) - 65536

/-- `struct.unpack_from('<h', data, off)`. -/
def unpackS16 (data : List Nat) (off : Int) : Option Int :=
  (unpackU16 data off).map toS16

/-- Clamp one bound of a Python slice `data[a:b]`. -/
def pySliceIdx (n : Nat) (i : Int) : Nat :=
  if i < 0 then (i + n).toNat else min i.toNat n

/-- Python `data[a:b]`: slicing never raises, bounds are clamped. -/
def pySlice (data : List Nat) (a b : Int) : List Nat :=
  (data.take (pySliceIdx data.length b)).drop (pySliceIdx data.length a)

/-- The demux state shared through `LogData.update`: the class-level
`LogData.unknowns` list of already-reported unknown record ids
(`unknowns = []` is a class attribute mutated in place by
`self.unknowns.append(id)`, never assigned per instance, so one list is
shared by every instance in the process). -/
structure DemuxSt where
  unknowns : List Nat
  deriving DecidableEq, Repr

def ID_NEW_MVO_FEEDBACK : Nat := 29
def ID_IMU_ATTI : Nat := 2048

/-- `LogNewMvoFeedback.update` unpacks `'<hhh'` at offset 2 and `'fff'`
at offset 8, so it succeeds exactly when the payload holds at least 20
bytes (`struct.error` otherwise); the decoded floating-point fields lie
outside this embedding. -/
def mvoUpdateOk (payload : List Nat) : Bool := decide (20 ≤ payload.length)

/-- `LogImuAtti.update` unpacks `'fff'` at 20 and 32, `'ffff'` at 48 and
`'fff'` at 76, so it needs at least 88 payload bytes. -/
def imuUpdateOk (payload : List Nat) : Bool := decide (88 ≤ payload.length)

/-- Outcome of one iteration of the scanning loop. -/
inductive StepRes
  | next (pos : Int) (st : DemuxSt) (emitted : List Nat)
  | syncFail (pos : Int)
  | pyerr
  deriving DecidableEq, Repr

/-- One iteration of `LogData.update`'s scanning loop at position `pos`:
check the sync byte (0x55), read the declared signed record length at
`pos+1`, the checksum byte at `pos+3` (bound but never verified), the
record id at `pos+4`, the xor byte at `pos+6`; de-obfuscate the payload
slice `[pos+10, pos+10+length-12)`, dispatch on the id — appending the id
to the one-time-diagnostic list when it is neither known id and unseen —
and advance by the declared length.  `syncFail` is the in-loop
`Exception('corrupted data')`; `pyerr` is a `struct.error`/`IndexError`
from a read or from a sub-decoder.  `emitted` lists the ids for which the
one-time `UNHANDLED LOG DATA` diagnostic was logged. -/
def stepRecord (data : List Nat) (pos : Int) (st : DemuxSt) : StepRes :=
  match pyGetByte data pos with
  | none => .pyerr
  | some b =>
    if b ≠ 0x55 then .syncFail pos
    else
      match unpackS16 data (pos + 1) with
      | none => .pyerr
      | some len =>
        match pyGetByte data (pos + 3) with
        | none => .pyerr
        | some _ =>
          match unpackU16 data (pos + 4) with
          | none => .pyerr
          | some rid =>
            match pyGetByte data (pos + 6) with
            | none => .pyerr
            | some xorval =>
              let payload := (pySlice data (pos + 10) (pos + 10 + len - 12)).map
                (fun x => x ^^^ xorval)
              if rid = ID_NEW_MVO_FEEDBACK then
                if mvoUpdateOk payload then .next (pos + len) st [] else .pyerr
              else if rid = ID_IMU_ATTI then
                if imuUpdateOk payload then .next (pos + len) st [] else .pyerr
              else if rid ∈ st.unknowns then .next (pos + len) st []
              else .next (pos + len) ⟨st.unknowns ++ [rid]⟩ [rid]

/-- Outcome of the whole scanning loop; the state and the diagnostics
logged so far are carried in every case, because the class-level
`unknowns` mutations survive a raised exception. -/
inductive LoopRes
  | done (pos : Int) (st : DemuxSt) (log : List Nat)
  | syncFail (pos : Int) (st : DemuxSt) (log : List Nat)
  | pyerr (st : DemuxSt) (log : List Nat)
  | spin (st : DemuxSt) (log : List Nat)
  deriving DecidableEq, Repr

/-- `while pos < len(data) - 2`, with explicit fuel; `spin` means the
fuel ran out with the Python loop still running. -/
def runLoop (data : List Nat) (fuel : Nat) (pos : Int) (st : DemuxSt)
    (log : List Nat) : LoopRes :=
  if pos < (data.length : Int) - 2 then
    match fuel with
    | 0 => .spin st log
    | fuel' + 1 =>
      match stepRecord data pos st with
      | .next pos' st' l => runLoop data fuel' pos' st' (log ++ l)
      | .syncFail p => .syncFail p st log
      | .pyerr => .pyerr st log
  else .done pos st log

inductive UpdRes
  | ok (st : DemuxSt) (log : List Nat)
  | corruptSync (pos : Int) (st : DemuxSt) (log : List Nat)
  | corruptFinal (pos : Int) (st : DemuxSt) (log : List Nat)
  | pyerr (st : DemuxSt) (log : List Nat)
  | spin (st : DemuxSt) (log : List Nat)
  deriving DecidableEq, Repr

/-- `LogData.update(data)`: scan from position 0; when the loop exits
normally, raise `Exception('corrupted data')` (`corruptFinal`) iff the
final position is not exactly `len(data) - 2`, otherwise return — the
two trailing checksum bytes are never inspected. -/
def LogData.update (data : List Nat) (fuel : Nat) (st : DemuxSt) : UpdRes :=
  match runLoop data fuel 0 st [] with
  | .done pos st' log =>
    if pos ≠ (data.length : Int) - 2 then .corruptFinal pos st' log
    else .ok st' log
  | .syncFail pos st' log => .corruptSync pos st' log
  | .pyerr st' log => .pyerr st' log
  | .spin st' log => .spin st' log

/-- A well-formed single-record telemetry stream used to evaluate the
demux theorems: one record of declared length 13 with unknown id 7, one
payload byte, followed by the two trailing checksum bytes. -/
def stream15 : List Nat :=
  [0x55, 13, 0, 0, 7, 0, 9, 0, 0, 0, 42, 0xAA, 0xBB, 1, 2]

/-- C6: when the scanning loop exits normally, `update` raises the
corrupt-stream error iff the final position differs from
`len(data) - 2`; when it equals `len(data) - 2` the call returns
normally, with no check of the two trailing checksum bytes. -/
theorem C6_final_position_check (data : List Nat) (fuel : Nat) (st : DemuxSt)
    (pos : Int) (st' : DemuxSt) (log : List Nat)
    (h : runLoop data fuel 0 st [] = .done pos st' log) :
    (LogData.update data fuel st = .corruptFinal pos st' log ↔
      pos ≠ (data.length : Int) - 2) ∧
    (LogData.update data fuel st = .ok st' log ↔
      pos = (data.length : Int) - 2) := by
  simp only [LogData.update, h]
  by_cases hp : pos = (data.length : Int) - 2
  · rw [if_neg (by simpa using hp)]
    exact ⟨by simp [hp], by simp [hp]⟩
  · rw [if_pos hp]
    exact ⟨by simp [hp], by simp [hp]⟩

theorem C6_witness :
    (LogData.update stream15 15 ⟨[]⟩ = UpdRes.corruptFinal 13 ⟨[7]⟩ [7] ↔
      (13 : Int) ≠ (stream15.length : Int) - 2) ∧
    (LogData.update stream15 15 ⟨[]⟩ = UpdRes.ok ⟨[7]⟩ [7] ↔
      (13 : Int) = (stream15.length : Int) - 2) :=
  C6_final_position_check stream15 15 ⟨[]⟩ 13 ⟨[7]⟩ [7] (by decide)

/-- The record length declared at scanning position `p`: the signed
little-endian 16-bit value in bytes `p+1`, `p+2`. -/
def declLen (data : List Nat) (p : Nat) : Int :=
  toS16 (data.getD (p + 1) 0 + data.getD (p + 2) 0 * 256)

theorem pyGetByte_nonneg (data : List Nat) (pos : Int) (h0 : 0 ≤ pos)
    (h : pos < (data.length : Int)) :
    pyGetByte data pos = some (data.getD pos.toNat 0) := by
  have hoff : pyOff data.length pos = pos := by
    rw [pyOff, if_neg (by omega)]
  rw [pyGetByte, hoff, if_pos ⟨h0, h⟩]

theorem unpackS16_at (data : List Nat) (pos : Int) (h0 : 0 ≤ pos)
    (h3 : pos + 3 ≤ (data.length : Int)) :
    unpackS16 data (pos + 1) = some (declLen data pos.toNat) := by
  have hoff : pyOff data.length (pos + 1) = pos + 1 := by
    rw [pyOff, if_neg (by omega)]
  rw [unpackS16, unpackU16, hoff, if_pos ⟨by omega, by omega⟩]
  have ht : (pos + 1).toNat = pos.toNat + 1 := by omega
  rw [ht]
  rfl

/-- Any successful loop iteration advances the position by exactly the
declared record length. -/
theorem step_next_advance (data : List Nat) (pos : Int) (st : DemuxSt)
    (pos' : Int) (st2 : DemuxSt) (l : List Nat) (h0 : 0 ≤ pos)
    (hlt : pos < (data.length : Int) - 2)
    (hs : stepRecord data pos st = .next pos' st2 l) :
    pos' = pos + declLen data pos.toNat := by
  simp only [stepRecord, pyGetByte_nonneg data pos h0 (by omega),
    unpackS16_at data pos h0 (by omega)] at hs
  by_cases hb : data.getD pos.toNat 0 = 0x55
  · rw [if_neg (not_ne_iff.mpr hb)] at hs
    cases hc : pyGetByte data (pos + 3) with
    | none => rw [hc] at hs; exact StepRes.noConfusion hs
    | some c =>
      rw [hc] at hs
      simp only [] at hs
      cases hid : unpackU16 data (pos + 4) with
      | none => rw [hid] at hs; exact StepRes.noConfusion hs
      | some rid =>
        rw [hid] at hs
        simp only [] at hs
        cases hx : pyGetByte data (pos + 6) with
        | none => rw [hx] at hs; exact StepRes.noConfusion hs
        | some xorval =>
          rw [hx] at hs
          simp only [] at hs
          split_ifs at hs <;>
            first
            | exact StepRes.noConfusion hs
            | exact ((StepRes.next.injEq _ _ _ _ _ _).mp hs).1.symm
  · rw [if_pos hb] at hs
    exact StepRes.noConfusion hs

/-- With fuel covering the remaining distance to the end of the buffer,
the loop never runs out of fuel as long as every sync-marked position
declares a positive record length. -/
theorem runLoop_no_spin (data : List Nat)
    (h : ∀ p, p < data.length → data.getD p 0 = 0x55 → 1 ≤ declLen data p) :
    ∀ (fuel : Nat) (pos : Int) (st : DemuxSt) (log : List Nat), 0 ≤ pos →
      (data.length : Int) - 2 - pos ≤ (fuel : Int) →
      ∀ st' log', runLoop data fuel pos st log ≠ .spin st' log' := by
  intro fuel
  induction fuel with
  | zero =>
    intro pos st log h0 hf st' log'
    rw [runLoop, if_neg (by omega)]
    exact fun hc => LoopRes.noConfusion hc
  | succ n ih =>
    intro pos st log h0 hf st' log'
    rw [runLoop]
    by_cases hlt : pos < (data.length : Int) - 2
    · rw [if_pos hlt]
      cases hs : stepRecord data pos st with
      | next pos2 st2 l =>
        have hadv : pos2 = pos + declLen data pos.toNat :=
          step_next_advance data pos st pos2 st2 l h0 hlt hs
        have hdl : 1 ≤ declLen data pos.toNat := by
          apply h pos.toNat (by omega)
          by_contra hb
          simp only [stepRecord, pyGetByte_nonneg data pos h0 (by omega)] at hs
          rw [if_pos hb] at hs
          exact StepRes.noConfusion hs
        exact ih pos2 st2 (log ++ l) (by omega) (by omega) st' log'
      | syncFail p => exact fun hc => LoopRes.noConfusion hc
      | pyerr => exact fun hc => LoopRes.noConfusion hc
    · rw [if_neg hlt]
      exact fun hc => LoopRes.noConfusion hc

theorem update_of_done {data : List Nat} {fuel : Nat} {st : DemuxSt} {pos : Int}
    {st2 : DemuxSt} {log : List Nat}
    (hr : runLoop data fuel 0 st [] = .done pos st2 log) :
    LogData.update data fuel st =
      if pos ≠ (data.length : Int) - 2 then .corruptFinal pos st2 log
      else .ok st2 log := by
  rw [LogData.update, hr]

theorem update_of_syncFail {data : List Nat} {fuel : Nat} {st : DemuxSt} {p : Int}
    {st2 : DemuxSt} {log : List Nat}
    (hr : runLoop data fuel 0 st [] = .syncFail p st2 log) :
    LogData.update data fuel st = .corruptSync p st2 log := by
  rw [LogData.update, hr]

theorem update_of_pyerr {data : List Nat} {fuel : Nat} {st : DemuxSt}
    {st2 : DemuxSt} {log : List Nat}
    (hr : runLoop data fuel 0 st [] = .pyerr st2 log) :
    LogData.update data fuel st = .pyerr st2 log := by
  rw [LogData.update, hr]

theorem update_of_spin {data : List Nat} {fuel : Nat} {st : DemuxSt}
    {st2 : DemuxSt} {log : List Nat}
    (hr : runLoop data fuel 0 st [] = .spin st2 log) :
    LogData.update data fuel st = .spin st2 log := by
  rw [LogData.update, hr]

/-- C7: the claim fails on the code: on this 5-byte stream the loop is
entered (0 < 5-2), the sync byte matches and the declared length is 5,
but the id read at offset 4 needs bytes 4 and 5 and runs past the end of
the buffer, so `update` surfaces a raw `struct.error` — neither a normal
return nor the corrupt-stream exception.  (A declared record length of 0,
e.g. the stream `[0x55,0,0,0,0,0,0]`, additionally makes the loop spin at
a fixed position forever.) -/
theorem C7_counterexample :
    LogData.update [0x55, 5, 0, 0, 0] 5 ⟨[]⟩ = UpdRes.pyerr ⟨[]⟩ [] := by decide

/-- C7 (amended): with fuel `len(data)`, `update` never runs out of fuel
— i.e. the Python loop terminates, returning or raising — provided every
position holding the sync byte 0x55 declares a positive record length;
a zero or negative declared length at a reached record makes the loop
diverge, and truncated records surface as raw struct/index errors rather
than the corrupt-stream exception. -/
theorem C7_update_terminates (data : List Nat) (st : DemuxSt)
    (h : ∀ p, p < data.length → data.getD p 0 = 0x55 → 1 ≤ declLen data p) :
    ∀ st' log', LogData.update data data.length st ≠ .spin st' log' := by
  intro st' log' hc
  cases hr : runLoop data data.length 0 st [] with
  | done pos st2 log =>
    rw [update_of_done hr] at hc
    by_cases hp : pos = (data.length : Int) - 2
    · rw [if_neg (not_ne_iff.mpr hp)] at hc
      exact UpdRes.noConfusion hc
    · rw [if_pos hp] at hc
      exact UpdRes.noConfusion hc
  | syncFail p st2 log =>
    rw [update_of_syncFail hr] at hc
    exact UpdRes.noConfusion hc
  | pyerr st2 log =>
    rw [update_of_pyerr hr] at hc
    exact UpdRes.noConfusion hc
  | spin st2 log =>
    exact runLoop_no_spin data h data.length 0 st [] (by omega) (by omega) st2 log hr

theorem C7_witness :
    LogData.update stream15 15 ⟨[]⟩ ≠ UpdRes.spin ⟨[]⟩ [] :=
  C7_update_terminates stream15 ⟨[]⟩ (by decide) ⟨[]⟩ []

def LoopRes.st : LoopRes → DemuxSt
  | .done _ s _ => s
  | .syncFail _ s _ => s
  | .pyerr s _ => s
  | .spin s _ => s

def LoopRes.log : LoopRes → List Nat
  | .done _ _ l => l
  | .syncFail _ _ l => l
  | .pyerr _ l => l
  | .spin _ l => l

def UpdRes.st : UpdRes → DemuxSt
  | .ok s _ => s
  | .corruptSync _ s _ => s
  | .corruptFinal _ s _ => s
  | .pyerr s _ => s
  | .spin s _ => s

def UpdRes.log : UpdRes → List Nat
  | .ok _ l => l
  | .corruptSync _ _ l => l
  | .corruptFinal _ _ l => l
  | .pyerr _ l => l
  | .spin _ l => l

/-- Discipline of the one-time-diagnostic state across a demux run from
state `st` to state `st'` while emitting `emitted`: the dedupe list only
grows, every id is emitted at most once, an emitted id is recorded, and
an id already recorded is never emitted. -/
def LogDiscipline (st st' : DemuxSt) (emitted : List Nat) : Prop :=
  (∀ i, i ∈ st.unknowns → i ∈ st'.unknowns) ∧
  (∀ i, emitted.count i ≤ 1) ∧
  (∀ i, i ∈ emitted → i ∈ st'.unknowns) ∧
  (∀ i, i ∈ st.unknowns → emitted.count i = 0)

theorem discipline_refl (st : DemuxSt) : LogDiscipline st st [] :=
  ⟨fun _ h => h, fun _ => by simp, fun _ h => absurd h (List.not_mem_nil _),
   fun _ _ => rfl⟩

theorem discipline_fresh (st : DemuxSt) (i : Nat) (hi : i ∉ st.unknowns) :
    LogDiscipline st ⟨st.unknowns ++ [i]⟩ [i] := by
  refine ⟨fun j hj => List.mem_append_left _ hj, ?_, ?_, ?_⟩
  · intro j
    by_cases h : i = j <;> simp [List.count_cons, h]
  · intro j hj
    rw [List.mem_singleton] at hj
    subst hj
    exact List.mem_append_right _ (List.mem_singleton_self j)
  · intro j hj
    have hne : i ≠ j := fun he => hi (he ▸ hj)
    simp [List.count_cons, List.count_nil, hne]

theorem discipline_trans {s1 s2 s3 : DemuxSt} {e1 e2 : List Nat}
    (h1 : LogDiscipline s1 s2 e1) (h2 : LogDiscipline s2 s3 e2) :
    LogDiscipline s1 s3 (e1 ++ e2) := by
  obtain ⟨g1, c1, m1, z1⟩ := h1
  obtain ⟨g2, c2, m2, z2⟩ := h2
  refine ⟨fun i hi => g2 i (g1 i hi), ?_, ?_, ?_⟩
  · intro i
    rw [List.count_append]
    by_cases hi : i ∈ e1
    · have : e2.count i = 0 := z2 i (m1 i hi)
      have := c1 i
      omega
    · have : e1.count i = 0 := List.count_eq_zero.mpr hi
      have := c2 i
      omega
  · intro i hi
    rcases List.mem_append.mp hi with h | h
    · exact g2 i (m1 i h)
    · exact m2 i h
  · intro i hi
    rw [List.count_append, z1 i hi, z2 i (g1 i hi)]

/-- A successful loop iteration either leaves the dedupe state unchanged
and emits nothing, or records one fresh id and emits exactly it. -/
theorem step_next_unknowns (data : List Nat) (pos : Int) (st : DemuxSt)
    (pos' : Int) (st' : DemuxSt) (l : List Nat)
    (hs : stepRecord data pos st = .next pos' st' l) :
    (st' = st ∧ l = []) ∨
    ∃ i, i ∉ st.unknowns ∧ st' = ⟨st.unknowns ++ [i]⟩ ∧ l = [i] := by
  rw [stepRecord] at hs
  cases h1 : pyGetByte data pos with
  | none => rw [h1] at hs; exact StepRes.noConfusion hs
  | some b =>
    simp only [h1] at hs
    by_cases hb : b = 0x55
    · rw [if_neg (not_ne_iff.mpr hb)] at hs
      cases h2 : unpackS16 data (pos + 1) with
      | none => rw [h2] at hs; exact StepRes.noConfusion hs
      | some len =>
        simp only [h2] at hs
        cases h3 : pyGetByte data (pos + 3) with
        | none => rw [h3] at hs; exact StepRes.noConfusion hs
        | some c =>
          simp only [h3] at hs
          cases h4 : unpackU16 data (pos + 4) with
          | none => rw [h4] at hs; exact StepRes.noConfusion hs
          | some rid =>
            simp only [h4] at hs
            cases h5 : pyGetByte data (pos + 6) with
            | none => rw [h5] at hs; exact StepRes.noConfusion hs
            | some xorval =>
              simp only [h5] at hs
              split_ifs at hs
              all_goals first
              | exact StepRes.noConfusion hs
              | (injection hs with hp hst hl
                 exact Or.inl ⟨hst.symm, hl.symm⟩)
              | (injection hs with hp hst hl
                 exact Or.inr ⟨rid, by assumption, hst.symm, hl.symm⟩)
    · rw [if_pos hb] at hs
      exact StepRes.noConfusion hs

/-- The scanning loop obeys the one-time-diagnostic discipline. -/
theorem runLoop_discipline (data : List Nat) :
    ∀ (fuel : Nat) (pos : Int) (st : DemuxSt) (log : List Nat),
      ∃ e, (runLoop data fuel pos st log).log = log ++ e ∧
        LogDiscipline st (runLoop data fuel pos st log).st e := by
  intro fuel
  induction fuel with
  | zero =>
    intro pos st log
    by_cases hlt : pos < (data.length : Int) - 2
    · rw [runLoop, if_pos hlt]
      exact ⟨[], by simp [LoopRes.log], by simpa [LoopRes.st] using discipline_refl st⟩
    · rw [runLoop, if_neg hlt]
      exact ⟨[], by simp [LoopRes.log], by simpa [LoopRes.st] using discipline_refl st⟩
  | succ n ih =>
    intro pos st log
    by_cases hlt : pos < (data.length : Int) - 2
    · rw [runLoop, if_pos hlt]
      cases hs : stepRecord data pos st with
      | next pos2 st2 l =>
        simp only [hs]
        obtain ⟨e2, hlog2, hd2⟩ := ih pos2 st2 (log ++ l)
        have hd1 : LogDiscipline st st2 l := by
          rcases step_next_unknowns data pos st pos2 st2 l hs with ⟨hst, hl⟩ | ⟨i, hi, hst, hl⟩
          · rw [hst, hl]; exact discipline_refl st
          · rw [hst, hl]; exact discipline_fresh st i hi
        exact ⟨l ++ e2, by rw [hlog2, List.append_assoc], discipline_trans hd1 hd2⟩
      | syncFail p =>
        simp only [hs]
        exact ⟨[], by simp [LoopRes.log], by simpa [LoopRes.st] using discipline_refl st⟩
      | pyerr =>
        simp only [hs]
        exact ⟨[], by simp [LoopRes.log], by simpa [LoopRes.st] using discipline_refl st⟩
    · rw [runLoop, if_neg hlt]
      exact ⟨[], by simp [LoopRes.log], by simpa [LoopRes.st] using discipline_refl st⟩

/-- One `update` call obeys the one-time-diagnostic discipline. -/
theorem update_discipline (data : List Nat) (fuel : Nat) (st : DemuxSt) :
    LogDiscipline st (LogData.update data fuel st).st
      (LogData.update data fuel st).log := by
  obtain ⟨e, hlog, hd⟩ := runLoop_discipline data fuel 0 st []
  cases hr : runLoop data fuel 0 st [] with
  | done pos st2 log =>
    rw [hr] at hlog hd
    simp only [LoopRes.log, List.nil_append] at hlog
    simp only [LoopRes.st] at hd
    subst hlog
    rw [update_of_done hr]
    by_cases hp : pos ≠ (data.length : Int) - 2
    · rw [if_pos hp]
      exact hd
    · rw [if_neg hp]
      exact hd
  | syncFail p st2 log =>
    rw [hr] at hlog hd
    simp only [LoopRes.log, List.nil_append] at hlog
    simp only [LoopRes.st] at hd
    subst hlog
    rw [update_of_syncFail hr]
    exact hd
  | pyerr st2 log =>
    rw [hr] at hlog hd
    simp only [LoopRes.log, List.nil_append] at hlog
    simp only [LoopRes.st] at hd
    subst hlog
    rw [update_of_pyerr hr]
    exact hd
  | spin st2 log =>
    rw [hr] at hlog hd
    simp only [LoopRes.log, List.nil_append] at hlog
    simp only [LoopRes.st] at hd
    subst hlog
    rw [update_of_spin hr]
    exact hd

/-- A sequence of `update` calls on one session: thread the dedupe state
through and concatenate the emitted diagnostics. -/
def runUpdates (fuel : Nat) (bufs : List (List Nat)) (st : DemuxSt) :
    DemuxSt × List Nat :=
  match bufs with
  | [] => (st, [])
  | d :: rest =>
    let r := LogData.update d fuel st
    let next := runUpdates fuel rest r.st
    (next.1, r.log ++ next.2)

theorem runUpdates_discipline (fuel : Nat) (bufs : List (List Nat)) :
    ∀ st : DemuxSt,
      LogDiscipline st (runUpdates fuel bufs st).1 (runUpdates fuel bufs st).2 := by
  induction bufs with
  | nil =>
    intro st
    simpa [runUpdates] using discipline_refl st
  | cons d rest ih =>
    intro st
    have h1 := update_discipline d fuel st
    have h2 := ih (LogData.update d fuel st).st
    simpa [runUpdates] using discipline_trans h1 h2

/-- C8: (i) a record whose id is neither the motion-feedback id 29 nor
the attitude id 2048 is decoded without error — once its header reads
succeed, the scanning step always continues, emitting the one-time
diagnostic exactly when the id is not yet in the dedupe list; (ii)
across any sequence of `update` calls on one session, the diagnostic for
any id is emitted at most once, and never for an id already recorded. -/
theorem C8_unknown_id_reported_once :
    (∀ (data : List Nat) (pos : Int) (st : DemuxSt) (len : Int)
      (c rid xorval : Nat),
      pyGetByte data pos = some 0x55 →
      unpackS16 data (pos + 1) = some len →
      pyGetByte data (pos + 3) = some c →
      unpackU16 data (pos + 4) = some rid →
      pyGetByte data (pos + 6) = some xorval →
      rid ≠ ID_NEW_MVO_FEEDBACK → rid ≠ ID_IMU_ATTI →
      ∃ st', stepRecord data pos st = .next (pos + len) st'
        (if rid ∈ st.unknowns then [] else [rid])) ∧
    (∀ (fuel : Nat) (bufs : List (List Nat)) (u0 : List Nat) (i : Nat),
      (runUpdates fuel bufs ⟨u0⟩).2.count i ≤ 1 ∧
      (i ∈ u0 → (runUpdates fuel bufs ⟨u0⟩).2.count i = 0)) := by
  constructor
  · intro data pos st len c rid xorval hsync hlen hck hid hxor hm hi
    rw [stepRecord]
    simp only [hsync, hlen, hck, hid, hxor]
    rw [if_neg (by simp), if_neg hm, if_neg hi]
    by_cases hmem : rid ∈ st.unknowns
    · rw [if_pos hmem, if_pos hmem]
      exact ⟨st, rfl⟩
    · rw [if_neg hmem, if_neg hmem]
      exact ⟨⟨st.unknowns ++ [rid]⟩, rfl⟩
  · intro fuel bufs u0 i
    have hd := runUpdates_discipline fuel bufs ⟨u0⟩
    exact ⟨hd.2.1 i, fun hi => hd.2.2.2 i hi⟩

theorem C8_witness :
    (∃ st', stepRecord stream15 0 ⟨[]⟩ = StepRes.next (0 + 13) st'
      (if 7 ∈ (DemuxSt.mk []).unknowns then [] else [7])) ∧
    ((runUpdates 15 [stream15, stream15] ⟨[]⟩).2.count 7 ≤ 1 ∧
      (7 ∈ ([] : List Nat) →
        (runUpdates 15 [stream15, stream15] ⟨[]⟩).2.count 7 = 0)) :=
  ⟨C8_unknown_id_reported_once.1 stream15 0 ⟨[]⟩ 13 0 7 9 (by decide) (by decide)
    (by decide) (by decide) (by decide) (by decide) (by decide),
   C8_unknown_id_reported_once.2 15 [stream15, stream15] [] 7⟩

/-- A process-level run: each event `(k, data)` is instance `k` calling
`update(data)`.  `LogData.unknowns` is a class attribute that is only
ever mutated in place (`self.unknowns.append(id)`) and never rebound on
an instance, so attribute lookup always reaches the single class-level
list: every instance shares one dedupe state, and the instance index of
an event cannot influence it. -/
def processRun (fuel : Nat) (evs : List (Nat × List Nat)) (st : DemuxSt) :
    DemuxSt × List Nat :=
  runUpdates fuel (evs.map Prod.snd) st

/-- C10: the dedupe set is process-wide class state, not per-instance:
an id emitted during any earlier events is recorded in the shared state,
and once recorded, no later `update` — by the same instance, another
instance, or one constructed later — emits the diagnostic for it again. -/
theorem C10_unknowns_shared_across_instances (fuel : Nat)
    (evs1 evs2 : List (Nat × List Nat)) (i : Nat) (st0 : DemuxSt) :
    (i ∈ (processRun fuel evs1 st0).2 →
      i ∈ (processRun fuel evs1 st0).1.unknowns) ∧
    (i ∈ (processRun fuel evs1 st0).1.unknowns →
      (processRun fuel evs2 (processRun fuel evs1 st0).1).2.count i = 0) := by
  have h1 := runUpdates_discipline fuel (evs1.map Prod.snd) st0
  have h2 := runUpdates_discipline fuel (evs2.map Prod.snd)
    (processRun fuel evs1 st0).1
  exact ⟨fun hm => h1.2.2.1 i hm, fun hmem => h2.2.2.2 i hmem⟩

theorem C10_witness :
    7 ∈ (processRun 15 [(0, stream15)] ⟨[]⟩).1.unknowns ∧
    (processRun 15 [(1, stream15)] (processRun 15 [(0, stream15)] ⟨[]⟩).1).2.count
      7 = 0 :=
  ⟨by decide,
   (C10_unknowns_shared_across_instances 15 [(0, stream15)] [(1, stream15)] 7
     ⟨[]⟩).2 (by decide)⟩

end Tello
